import Mathlib

/-
Verification of the pending/approved lifecycle of the RAG data platform.

The Python source keeps every record as a pair of sibling files (a content
file and a metadata sidecar) inside per-stage pending and approved
directories, and keeps chunk records as numbered JSON files inside one
subfolder per source file.  This development embeds those directories and
the route handlers that manipulate them as pure Lean functions and proves
the lifecycle properties stated in the design notes.
-/

namespace RagPlatform

/-- Strings of the Python source are embedded as lists of characters. -/
abbrev Str := List Char

/-- Python str.strip with no argument: drop leading and trailing whitespace. -/
def pyStrip (s : Str) : Str :=
  ((s.dropWhile Char.isWhitespace).reverse.dropWhile Char.isWhitespace).reverse

/-- Python str.isalnum: true on a nonempty string of alphanumeric characters. -/
def pyIsAlnum (s : Str) : Bool :=
  !s.isEmpty && s.all Char.isAlphanum

/-- A stage directory: a map from base filename to the file stored there. -/
abbrev Dir (α : Type) := Str → Option α

/-- Writing a file: later reads of the key see the new value. -/
def dirSet {α : Type} (d : Dir α) (k : Str) (v : α) : Dir α :=
  fun x => if x = k then some v else d x

/-- Removing a file (os.remove guarded by os.path.exists). -/
def dirDel {α : Type} (d : Dir α) (k : Str) : Dir α :=
  fun x => if x = k then none else d x

/-- An empty directory. -/
def dirEmpty {α : Type} : Dir α := fun _ => none

/-- The metadata sidecar written next to each raw or cleaned content file.
Fields mirror the JSON dictionaries built in app/routes/raw_data.py and
app/routes/cleaning.py; fields stamped later are optional. -/
structure Meta where
  id : Str
  filename : Str
  language : Str
  source : Str
  content_length : Nat
  submitted_at : Str
  status : Str
  submitted_by : Str
  original_raw_id : Option Str := none
  approved_at : Option Str := none
  approved_by : Option Str := none
  updated_at : Option Str := none
  updated_by : Option Str := none
deriving Repr, DecidableEq

/-- One stage store (raw or cleaned): the pending and approved directories,
each holding content files and metadata files side by side. -/
structure Stage where
  pendingContent : Dir Str
  pendingMeta : Dir Meta
  approvedContent : Dir Str
  approvedMeta : Dir Meta

/-- A stage with empty directories. -/
def Stage.empty : Stage :=
  { pendingContent := dirEmpty, pendingMeta := dirEmpty,
    approvedContent := dirEmpty, approvedMeta := dirEmpty }

/-- generate_metadata from app/routes/raw_data.py (lines 36-58).  The uuid
and the timestamp are taken as parameters of the embedding. -/
def generate_metadata (filename language source content : Str) (id now : Str) : Meta :=
  { id := id, filename := filename, language := language, source := source,
    content_length := content.length, submitted_at := now,
    status := "pending".toList, submitted_by := "collector".toList }

/-- submit_raw_data from app/routes/raw_data.py (lines 64-149): validate the
four required fields, strip the filename, reject filenames that are not
alphanumeric after removing underscores and hyphens, return 409 if a pending
content file with that name exists, otherwise write content and metadata
into the pending raw directory. -/
def submit_raw_data (st : Stage) (filename language source content id now : Str) :
    Nat × Stage :=
  if filename.isEmpty || language.isEmpty || source.isEmpty || content.isEmpty then
    (400, st)
  else
    let f := pyStrip filename
    if !(pyIsAlnum (f.filter (fun c => c != '_' && c != '-'))) then (400, st)
    else if (st.pendingContent f).isSome then (409, st)
    else
      let metadata := generate_metadata f language source content id now
      (200, { st with
        pendingContent := dirSet st.pendingContent f content,
        pendingMeta := dirSet st.pendingMeta f metadata })

/-- The cleaned metadata dictionary built in app/routes/cleaning.py
(lines 156-167) from the metadata of the approved raw file. -/
def cleaned_metadata (raw : Stage) (f content id now : Str) : Meta :=
  let rawMeta := raw.approvedMeta f
  { id := id, filename := f,
    language := (rawMeta.map Meta.language).getD "ta".toList,
    source := (rawMeta.map Meta.source).getD "unknown".toList,
    original_raw_id := some ((rawMeta.map Meta.id).getD []),
    content_length := content.length,
    submitted_at := now, status := "pending".toList,
    submitted_by := "cleaner".toList }

/-- submit_cleaned_data from app/routes/cleaning.py (lines 109-200): the
filename must match an approved raw content file (404 otherwise), return 409
if a pending cleaned content file with that name exists, otherwise write
content and metadata into the pending cleaned directory.  The field presence
check of the route is reflected by the function taking both fields. -/
def submit_cleaned_data (raw : Stage) (st : Stage) (filename content id now : Str) :
    Nat × Stage :=
  let f := pyStrip filename
  if (raw.approvedContent f).isNone then (404, st)
  else
    let metadata := cleaned_metadata raw f content id now
    if (st.pendingContent f).isSome then (409, st)
    else
      (200, { st with
        pendingContent := dirSet st.pendingContent f content,
        pendingMeta := dirSet st.pendingMeta f metadata })

/-- approve_submission from app/routes/admin.py, raw and cleaned branches
(lines 388-440): 404 when no pending content file exists; otherwise stamp the
metadata, move the content file to the approved directory, write the stamped
metadata there and delete the pending metadata.  A pending content file with
no metadata sidecar raises inside the handler, which answers 500 with the
state untouched (the read happens before any write). -/
def approve_submission (st : Stage) (filename now : Str) : Nat × Stage :=
  match st.pendingContent filename with
  | none => (404, st)
  | some content =>
    match st.pendingMeta filename with
    | none => (500, st)
    | some m =>
      let m2 := { m with status := "approved".toList,
                         approved_at := some now,
                         approved_by := some "admin".toList }
      (200, { pendingContent := dirDel st.pendingContent filename,
              pendingMeta := dirDel st.pendingMeta filename,
              approvedContent := dirSet st.approvedContent filename content,
              approvedMeta := dirSet st.approvedMeta filename m2 })

/-- reject_submission from app/routes/admin.py, raw and cleaned branches
(lines 540-556): delete the pending content and metadata when present and
report success in every case. -/
def reject_submission (st : Stage) (filename : Str) : Nat × Stage :=
  (200, { st with
    pendingContent := dirDel st.pendingContent filename,
    pendingMeta := dirDel st.pendingMeta filename })

/-- update_pending_item from app/routes/admin.py, raw and cleaned branches
(lines 250-306): 404 when no pending content file exists; otherwise overwrite
the content when one is given, merge the metadata patch (the dictionary merge
is embedded as an arbitrary record transformer) and stamp the update fields.
A missing metadata sidecar raises after the content write, which answers 500
with the content already overwritten. -/
def update_pending_item (st : Stage) (filename : Str) (newContent : Option Str)
    (metaPatch : Option (Meta → Meta)) (now : Str) : Nat × Stage :=
  match st.pendingContent filename with
  | none => (404, st)
  | some oldContent =>
    let st1 := { st with
      pendingContent := dirSet st.pendingContent filename (newContent.getD oldContent) }
    match st.pendingMeta filename with
    | none => (500, st1)
    | some m =>
      let merged := match metaPatch with
        | some p => p m
        | none => m
      let m2 := { merged with updated_at := some now,
                              updated_by := some "admin".toList }
      (200, { st1 with pendingMeta := dirSet st.pendingMeta filename m2 })

/-- Result of fetching a file: the route answers with content, metadata and
the location string, with 404, or with 500 when a content file exists whose
metadata sidecar is missing. -/
inductive FetchResult where
  | found (content : Str) (metadata : Meta) (location : Str) : FetchResult
  | missing : FetchResult
  | readError : FetchResult
deriving Repr, DecidableEq

/-- get_file_content from app/routes/raw_data.py (lines 243-304) and
app/routes/cleaning.py (lines 288-341), which share this shape: try the
pending directory first, then the approved one, else 404. -/
def get_file_content (st : Stage) (filename : Str) : FetchResult :=
  match st.pendingContent filename with
  | some c =>
    match st.pendingMeta filename with
    | some m => .found c m "pending".toList
    | none => .readError
  | none =>
    match st.approvedContent filename with
    | some c =>
      match st.approvedMeta filename with
      | some m => .found c m "approved".toList
      | none => .readError
    | none => .missing

/-- Zero padding of f-string {index:02d}: decimal digits, left padded with
zeros to width at least two. -/
def pad2 (n : Nat) : Str :=
  let ds := Nat.toDigits 10 n
  List.replicate (2 - ds.length) '0' ++ ds

/-- generate_chunk_id from app/routes/chunking.py (lines 50-72). -/
def generate_chunk_id (language category filename : Str) (index : Nat) : Str :=
  let cat_short := if category.length > 3 then category.take 3 else category
  let file_short := (filename.filter (fun c => c != '_')).take 10
  language ++ "_".toList ++ cat_short ++ "_".toList ++ file_short ++ "_".toList ++ pad2 index

/-- Modelled from the spec: the chunk id formula of section 3, namely
language, the first 3 characters of category, the source filename stripped
of underscores truncated to 10 characters, and the zero padded index, joined
by underscores.  Stated separately so the source function can be compared
against it. -/
def chunk_id_spec (language category filename : Str) (index : Nat) : Str :=
  language ++ "_".toList ++ category.take 3 ++ "_".toList
    ++ (filename.filter (fun c => c != '_')).take 10 ++ "_".toList ++ pad2 index

/-- One chunk JSON file, as written by app/routes/chunking.py (lines 280-292).
The status and approval fields are absent until approval. -/
structure ChunkFile where
  chunk_id : Str
  text : Str
  language : Str
  category : Str
  source : Str
  chunk_index : Nat
  source_file : Str
  overlap_reference : Str
  created_at : Str
  created_by : Str
  text_length : Nat
  status : Option Str := none
  approved_at : Option Str := none
  approved_by : Option Str := none
deriving Repr, DecidableEq

/-- The chunk store: for each source file one pending and one approved
subfolder of numbered chunk files.  A missing subfolder and an empty one are
both the empty list, matching the os.path.exists guards around counting. -/
structure ChunkStore where
  pending : Str → List (Nat × ChunkFile)
  approved : Str → List (Nat × ChunkFile)

/-- A chunk store with no folders. -/
def ChunkStore.empty : ChunkStore :=
  { pending := fun _ => [], approved := fun _ => [] }

/-- Writing chunk file chunk_XX.json: replaces a file of the same index. -/
def fsWrite (dir : List (Nat × ChunkFile)) (i : Nat) (c : ChunkFile) :
    List (Nat × ChunkFile) :=
  (i, c) :: dir.filter (fun p => p.1 != i)

/-- Removing chunk file chunk_XX.json. -/
def fsRemove (dir : List (Nat × ChunkFile)) (i : Nat) : List (Nat × ChunkFile) :=
  dir.filter (fun p => p.1 != i)

/-- The chunk indices present for a source file, pending then approved. -/
def chunkKeys (cs : ChunkStore) (f : Str) : List Nat :=
  (cs.pending f).map Prod.fst ++ (cs.approved f).map Prod.fst

/-- The existing chunk count for a source file, as computed in
app/routes/chunking.py (lines 264-272): pending plus approved json files. -/
def chunkCount (cs : ChunkStore) (f : Str) : Nat :=
  (cs.pending f).length + (cs.approved f).length

/-- submit_chunk from app/routes/chunking.py (lines 209-317): validate the
required fields, strip the filename, require the approved cleaned content
file (404 otherwise), read the language from the cleaned metadata with
default ta, assign index existing count plus one and write the chunk file
into the pending subfolder.  Returns the status code, the new store and the
assigned index. -/
def submit_chunk (cleaned : Stage) (cs : ChunkStore)
    (filename text category source overlap now : Str) :
    Nat × ChunkStore × Option Nat :=
  if filename.isEmpty || text.isEmpty || category.isEmpty then (400, cs, none)
  else
    let f := pyStrip filename
    if (cleaned.approvedContent f).isNone then (404, cs, none)
    else
      let language := ((cleaned.approvedMeta f).map Meta.language).getD "ta".toList
      let idx := chunkCount cs f + 1
      let chunk : ChunkFile := {
        chunk_id := generate_chunk_id language category f idx,
        text := text, language := language, category := category, source := source,
        chunk_index := idx, source_file := f, overlap_reference := overlap,
        created_at := now, created_by := "chunker".toList, text_length := text.length }
      (200,
       { cs with pending := fun k =>
           if k = f then fsWrite (cs.pending f) idx chunk else cs.pending k },
       some idx)

/-- delete_chunk from app/routes/chunking.py (lines 489-527): 404 when the
pending chunk file is absent, otherwise remove it. -/
def delete_chunk (cs : ChunkStore) (filename : Str) (idx : Nat) : Nat × ChunkStore :=
  if idx ∈ (cs.pending filename).map Prod.fst then
    (200, { cs with pending := fun k =>
       if k = filename then fsRemove (cs.pending filename) idx else cs.pending k })
  else (404, cs)

/-- One entry of the submit-batch request body; text and category drive the
presence check of the loop, the other fields have defaults. -/
structure BatchEntry where
  text : Option Str := none
  category : Option Str := none
  source : Option Str := none
  overlap_reference : Option Str := none
deriving Repr, DecidableEq

/-- The loop of submit_batch in app/routes/chunking.py (lines 389-421):
enumerate the entries, skip any entry missing text or category, give the
entry at position i the index existing count plus i plus one, write its
chunk file and record its id and index. -/
def submit_batch_loop (language f now : Str) (existing : Nat) :
    Nat → List (Nat × ChunkFile) → List BatchEntry →
    List (Nat × ChunkFile) × List (Str × Nat)
  | _, dir, [] => (dir, [])
  | i, dir, e :: rest =>
    match e.text, e.category with
    | some t, some c =>
      let idx := existing + i + 1
      let chunk : ChunkFile := {
        chunk_id := generate_chunk_id language c f idx,
        text := t, language := language, category := c,
        source := e.source.getD "unknown".toList,
        chunk_index := idx, source_file := f,
        overlap_reference := e.overlap_reference.getD [],
        created_at := now, created_by := "chunker".toList, text_length := t.length }
      let r := submit_batch_loop language f now existing (i + 1) (fsWrite dir idx chunk) rest
      (r.1, (chunk.chunk_id, idx) :: r.2)
    | _, _ => submit_batch_loop language f now existing (i + 1) dir rest

/-- submit_batch from app/routes/chunking.py (lines 323-435): reject an empty
entry list, require the approved cleaned content file, compute the existing
count once and run the loop.  Returns the status code, the new store and the
created id and index pairs. -/
def submit_batch (cleaned : Stage) (cs : ChunkStore) (filename : Str)
    (entries : List BatchEntry) (now : Str) :
    Nat × ChunkStore × List (Str × Nat) :=
  if entries.isEmpty then (400, cs, [])
  else
    let f := pyStrip filename
    if (cleaned.approvedContent f).isNone then (404, cs, [])
    else
      let language := ((cleaned.approvedMeta f).map Meta.language).getD "ta".toList
      let r := submit_batch_loop language f now (chunkCount cs f) 0 (cs.pending f) entries
      (200,
       { cs with pending := fun k => if k = f then r.1 else cs.pending k },
       r.2)

/-- The per item loop of push_to_huggingface in app/routes/admin.py
(lines 846-931), identical across the raw, cleaned and chunked sections, and
of sync_all_approved in app/services/huggingface.py (lines 382-466): each
item is attempted; a success increments the uploaded count and a failure
(upload error or read error) increments the failed count, never stopping the
loop.  The per item outcome is abstracted as a boolean function. -/
def push_batch {α : Type} (uploadOk : α → Bool) : List α → Nat × Nat
  | [] => (0, 0)
  | item :: rest =>
    let r := push_batch uploadOk rest
    if uploadOk item then (r.1 + 1, r.2) else (r.1, r.2 + 1)

/-- The index layout claimed for a batch submission, stated from the claim
for comparison with the loop of the source: position j of the request list
(0 based) receives index existing plus j plus one when the entry carries
both text and category, and is skipped, leaving a gap, otherwise. -/
def batch_index_claim (existing : Nat) (entries : List BatchEntry) : List Nat :=
  (List.range entries.length).filterMap fun j =>
    let e := entries.getD j ⟨none, none, none, none⟩
    if e.text.isSome && e.category.isSome then some (existing + j + 1) else none

/-- A concrete cleaned stage holding one approved cleaned file d1, used by
the example scenarios below. -/
def exCleaned : Stage := { Stage.empty with
  approvedContent := dirSet dirEmpty ("d1".toList) ("cc".toList) }

/-- A concrete chunk store with one pending chunk for source file d1. -/
def exStore1 : ChunkStore :=
  (submit_chunk exCleaned ChunkStore.empty ("d1".toList) ("x".toList) ("edu".toList)
    ("s".toList) [] ("t1".toList)).2.1

/-
Theorems.  Helper lemmas come first, one theorem per claim after them.
-/

theorem push_batch_uploaded {α : Type} (uploadOk : α → Bool) (items : List α) :
    (push_batch uploadOk items).1 = (items.filter uploadOk).length := by
  induction items with
  | nil => rfl
  | cons a l ih => by_cases h : uploadOk a <;> simp [push_batch, h, ih]

theorem push_batch_failed {α : Type} (uploadOk : α → Bool) (items : List α) :
    (push_batch uploadOk items).2 = (items.filter (fun x => !uploadOk x)).length := by
  induction items with
  | nil => rfl
  | cons a l ih => by_cases h : uploadOk a <;> simp [push_batch, h, ih]

theorem push_batch_sum {α : Type} (uploadOk : α → Bool) (items : List α) :
    (push_batch uploadOk items).1 + (push_batch uploadOk items).2 = items.length := by
  induction items with
  | nil => rfl
  | cons a l ih => by_cases h : uploadOk a <;> simp [push_batch, h] <;> omega

theorem push_batch_append {α : Type} (uploadOk : α → Bool) (items extra : List α) :
    (push_batch uploadOk (items ++ extra)).1
        = (push_batch uploadOk items).1 + (push_batch uploadOk extra).1
    ∧ (push_batch uploadOk (items ++ extra)).2
        = (push_batch uploadOk items).2 + (push_batch uploadOk extra).2 := by
  induction items with
  | nil => simp [push_batch]
  | cons a l ih => by_cases h : uploadOk a <;> simp [push_batch, h, ih.1, ih.2] <;> omega

/-- C5: the chunk id computed by the source equals the spec formula
{language}_{first 3 of category}_{source_file without underscores, first 10}
_{index zero padded to two digits}; being a pure function of exactly these
four arguments, the same inputs always reproduce the same id. -/
theorem C5_chunk_id_formula (language category filename : Str) (index : Nat) :
    generate_chunk_id language category filename index =
      chunk_id_spec language category filename index := by
  unfold generate_chunk_id chunk_id_spec
  by_cases h : category.length > 3
  · simp [h]
  · simp [h, List.take_of_length_le (by omega : category.length ≤ 3)]

/-- C8: in a batch push every item is attempted independently: the uploaded
count is the number of successful items, the failed count the number of
failed ones, the two sum to the number of items attempted, and the counts
over a batch split anywhere add up, so one failure never aborts the rest. -/
theorem C8_push_partial_failure {α : Type} (uploadOk : α → Bool) (items extra : List α) :
    (push_batch uploadOk items).1 = (items.filter uploadOk).length
    ∧ (push_batch uploadOk items).2 = (items.filter (fun x => !uploadOk x)).length
    ∧ (push_batch uploadOk items).1 + (push_batch uploadOk items).2 = items.length
    ∧ (push_batch uploadOk (items ++ extra)).1
        = (push_batch uploadOk items).1 + (push_batch uploadOk extra).1
    ∧ (push_batch uploadOk (items ++ extra)).2
        = (push_batch uploadOk items).2 + (push_batch uploadOk extra).2 :=
  ⟨push_batch_uploaded uploadOk items, push_batch_failed uploadOk items,
   push_batch_sum uploadOk items,
   (push_batch_append uploadOk items extra).1, (push_batch_append uploadOk items extra).2⟩

/-- C9: fetching a file returns the pending copy with location pending
whenever a pending copy exists (even when an approved copy exists as well),
returns the approved copy only when no pending copy exists, and answers 404
when neither exists. -/
theorem C9_fetch_prefers_pending (st : Stage) (filename c ca : Str) (m ma : Meta) :
    (st.pendingContent filename = some c → st.pendingMeta filename = some m →
      get_file_content st filename = .found c m "pending".toList)
    ∧ (st.pendingContent filename = none → st.approvedContent filename = some ca →
      st.approvedMeta filename = some ma →
      get_file_content st filename = .found ca ma "approved".toList)
    ∧ (st.pendingContent filename = none → st.approvedContent filename = none →
      get_file_content st filename = .missing) := by
  refine ⟨?_, ?_, ?_⟩
  · intro h1 h2; simp [get_file_content, h1, h2]
  · intro h1 h2 h3; simp [get_file_content, h1, h2, h3]
  · intro h1 h2; simp [get_file_content, h1, h2]

/-- C9 witness: a concrete state with both a pending and an approved copy of
the same filename, where the fetch returns the pending copy. -/
theorem C9_fetch_prefers_pending_witness :
    let f : Str := "g1".toList
    let mp := generate_metadata f "ta".toList "s".toList "cp".toList "i1".toList "t1".toList
    let ma := generate_metadata f "ta".toList "s".toList "ca".toList "i2".toList "t2".toList
    let st : Stage := {
      pendingContent := dirSet dirEmpty f "cp".toList,
      pendingMeta := dirSet dirEmpty f mp,
      approvedContent := dirSet dirEmpty f "ca".toList,
      approvedMeta := dirSet dirEmpty f ma }
    (st.pendingContent f = some ("cp".toList) → st.pendingMeta f = some mp →
      get_file_content st f = .found ("cp".toList) mp "pending".toList)
    ∧ (st.pendingContent f = none → st.approvedContent f = some ("ca".toList) →
      st.approvedMeta f = some ma →
      get_file_content st f = .found ("ca".toList) ma "approved".toList)
    ∧ (st.pendingContent f = none → st.approvedContent f = none →
      get_file_content st f = .missing) := by
  exact C9_fetch_prefers_pending _ _ _ _ _ _

/-- C4: approving answers 404 when no pending content file exists and leaves
the state unchanged; otherwise it removes the record from the pending
listing and adds it to the approved listing with status approved,
approved_at stamped, and the content unchanged. -/
theorem C4_approve_moves_record (st : Stage) (filename now c : Str) (m : Meta) :
    (st.pendingContent filename = none →
      approve_submission st filename now = (404, st))
    ∧ (st.pendingContent filename = some c → st.pendingMeta filename = some m →
      (approve_submission st filename now).1 = 200
      ∧ (approve_submission st filename now).2.pendingContent filename = none
      ∧ (approve_submission st filename now).2.pendingMeta filename = none
      ∧ (approve_submission st filename now).2.approvedContent filename = some c
      ∧ (approve_submission st filename now).2.approvedMeta filename =
          some { m with status := "approved".toList, approved_at := some now,
                        approved_by := some ("admin".toList) }) := by
  constructor
  · intro h; simp [approve_submission, h]
  · intro h1 h2
    simp [approve_submission, h1, h2, dirDel, dirSet]

/-- C4 witness: approving a concrete pending submission. -/
theorem C4_approve_moves_record_witness :
    let f : Str := "g1".toList
    let m := generate_metadata f "ta".toList "s".toList "c".toList "i1".toList "t1".toList
    let st : Stage := { Stage.empty with
      pendingContent := dirSet dirEmpty f "c".toList,
      pendingMeta := dirSet dirEmpty f m }
    st.pendingContent f = some ("c".toList) ∧ st.pendingMeta f = some m ∧
    ((st.pendingContent f = none →
      approve_submission st f "t2".toList = (404, st))
    ∧ (st.pendingContent f = some ("c".toList) → st.pendingMeta f = some m →
      (approve_submission st f "t2".toList).1 = 200
      ∧ (approve_submission st f "t2".toList).2.pendingContent f = none
      ∧ (approve_submission st f "t2".toList).2.pendingMeta f = none
      ∧ (approve_submission st f "t2".toList).2.approvedContent f = some ("c".toList)
      ∧ (approve_submission st f "t2".toList).2.approvedMeta f =
          some { m with status := "approved".toList, approved_at := some ("t2".toList),
                        approved_by := some ("admin".toList) })) :=
  ⟨by decide, by decide, C4_approve_moves_record _ _ _ _ _⟩

/-- C3: submitting a raw or cleaned record whose filename already has a
pending content file answers 409 with both stores untouched; otherwise a
valid submission writes the content file and the metadata file with status
pending into the pending directory.  The hypotheses state that the request
passes the field validation of the routes and, for the cleaned stage, that
the approved raw file required for lineage exists. -/
theorem C3_submit_conflict (raw st : Stage) (filename language source content id now : Str)
    (h1 : filename.isEmpty = false) (h2 : language.isEmpty = false)
    (h3 : source.isEmpty = false) (h4 : content.isEmpty = false)
    (h5 : pyIsAlnum ((pyStrip filename).filter (fun c => c != '_' && c != '-')) = true)
    (h6 : (raw.approvedContent (pyStrip filename)).isSome = true) :
    ((st.pendingContent (pyStrip filename)).isSome = true →
        submit_raw_data st filename language source content id now = (409, st))
    ∧ (st.pendingContent (pyStrip filename) = none →
        (submit_raw_data st filename language source content id now).1 = 200
        ∧ (submit_raw_data st filename language source content id now).2.pendingContent
            (pyStrip filename) = some content
        ∧ (submit_raw_data st filename language source content id now).2.pendingMeta
            (pyStrip filename)
            = some (generate_metadata (pyStrip filename) language source content id now)
        ∧ (generate_metadata (pyStrip filename) language source content id now).status
            = "pending".toList)
    ∧ ((st.pendingContent (pyStrip filename)).isSome = true →
        submit_cleaned_data raw st filename content id now = (409, st))
    ∧ (st.pendingContent (pyStrip filename) = none →
        (submit_cleaned_data raw st filename content id now).1 = 200
        ∧ (submit_cleaned_data raw st filename content id now).2.pendingContent
            (pyStrip filename) = some content
        ∧ (submit_cleaned_data raw st filename content id now).2.pendingMeta
            (pyStrip filename)
            = some (cleaned_metadata raw (pyStrip filename) content id now)
        ∧ (cleaned_metadata raw (pyStrip filename) content id now).status
            = "pending".toList) := by
  obtain ⟨rc, hrc⟩ := Option.isSome_iff_exists.mp h6
  refine ⟨?_, ?_, ?_, ?_⟩
  · intro h; simp [submit_raw_data, h1, h2, h3, h4, h5, h]
  · intro h
    simp [submit_raw_data, h1, h2, h3, h4, h5, h, dirSet, generate_metadata]
  · intro h; simp [submit_cleaned_data, hrc, h]
  · intro h
    simp [submit_cleaned_data, hrc, h, dirSet, cleaned_metadata]

/-- C3 witness: a concrete valid submission into an empty stage. -/
theorem C3_submit_conflict_witness :
    let f : Str := "g1".toList
    let raw : Stage := { Stage.empty with
      approvedContent := dirSet dirEmpty f "rc".toList }
    (f.isEmpty = false ∧ ("ta".toList : Str).isEmpty = false
      ∧ ("s".toList : Str).isEmpty = false ∧ ("c".toList : Str).isEmpty = false
      ∧ pyIsAlnum ((pyStrip f).filter (fun c => c != '_' && c != '-')) = true
      ∧ (raw.approvedContent (pyStrip f)).isSome = true)
    ∧ (((Stage.empty.pendingContent (pyStrip f)).isSome = true →
        submit_raw_data Stage.empty f "ta".toList "s".toList "c".toList "i1".toList "t1".toList
          = (409, Stage.empty))
      ∧ (Stage.empty.pendingContent (pyStrip f) = none →
        (submit_raw_data Stage.empty f "ta".toList "s".toList "c".toList "i1".toList "t1".toList).1 = 200
        ∧ (submit_raw_data Stage.empty f "ta".toList "s".toList "c".toList "i1".toList "t1".toList).2.pendingContent
            (pyStrip f) = some ("c".toList)
        ∧ (submit_raw_data Stage.empty f "ta".toList "s".toList "c".toList "i1".toList "t1".toList).2.pendingMeta
            (pyStrip f)
            = some (generate_metadata (pyStrip f) "ta".toList "s".toList "c".toList "i1".toList "t1".toList)
        ∧ (generate_metadata (pyStrip f) "ta".toList "s".toList "c".toList "i1".toList "t1".toList).status
            = "pending".toList)
      ∧ (((Stage.empty : Stage).pendingContent (pyStrip f)).isSome = true →
        submit_cleaned_data raw Stage.empty f "c".toList "i1".toList "t1".toList
          = (409, Stage.empty))
      ∧ ((Stage.empty : Stage).pendingContent (pyStrip f) = none →
        (submit_cleaned_data raw Stage.empty f "c".toList "i1".toList "t1".toList).1 = 200
        ∧ (submit_cleaned_data raw Stage.empty f "c".toList "i1".toList "t1".toList).2.pendingContent
            (pyStrip f) = some ("c".toList)
        ∧ (submit_cleaned_data raw Stage.empty f "c".toList "i1".toList "t1".toList).2.pendingMeta
            (pyStrip f)
            = some (cleaned_metadata raw (pyStrip f) "c".toList "i1".toList "t1".toList)
        ∧ (cleaned_metadata raw (pyStrip f) "c".toList "i1".toList "t1".toList).status
            = "pending".toList)) :=
  ⟨by decide,
   C3_submit_conflict
     { Stage.empty with approvedContent := dirSet dirEmpty ("g1".toList) ("rc".toList) }
     Stage.empty ("g1".toList) ("ta".toList) ("s".toList) ("c".toList) ("i1".toList)
     ("t1".toList) (by decide) (by decide) (by decide) (by decide)
     (by decide) (by decide)⟩

/-- C6 counterexample: after submitting, approving, and resubmitting the
same filename, a pending record with that filename exists while an approved
copy also exists; rejecting the pending record reports success but the
filename is still present in the approved listing, so it is not absent from
both listings as the claim states. -/
theorem C6_counterexample :
    let f : Str := "f1".toList
    let s1 := (submit_raw_data Stage.empty f "ta".toList "s".toList "c1".toList
                 "i1".toList "t1".toList).2
    let s2 := (approve_submission s1 f "t2".toList).2
    let s3 := (submit_raw_data s2 f "ta".toList "s".toList "c2".toList
                 "i2".toList "t3".toList).2
    let r := reject_submission s3 f
    (s3.pendingMeta f).isSome = true
    ∧ r.1 = 200
    ∧ (r.2.pendingMeta f).isSome = false
    ∧ (r.2.approvedMeta f).isSome = true := by decide

/-- C6 corrected: rejecting deletes the pending content and metadata
unconditionally and reports success whether or not the files existed; the
record becomes absent from the pending listing and the approved listing is
untouched, so a record with no approved copy becomes absent from both
listings, while a filename that also had an approved copy remains in the
approved listing. -/
theorem C6_reject_amended (st : Stage) (filename g : Str) :
    (reject_submission st filename).1 = 200
    ∧ (reject_submission st filename).2.pendingContent filename = none
    ∧ (reject_submission st filename).2.pendingMeta filename = none
    ∧ (reject_submission st filename).2.approvedContent g = st.approvedContent g
    ∧ (reject_submission st filename).2.approvedMeta g = st.approvedMeta g
    ∧ (st.approvedMeta filename = none →
        (reject_submission st filename).2.pendingMeta filename = none
        ∧ (reject_submission st filename).2.approvedMeta filename = none) := by
  refine ⟨rfl, by simp [reject_submission, dirDel], by simp [reject_submission, dirDel],
    rfl, rfl, ?_⟩
  intro h
  exact ⟨by simp [reject_submission, dirDel], h⟩

/-- C6 witness: rejecting a concrete pending only record empties both
listings for it. -/
theorem C6_reject_amended_witness :
    let f : Str := "g1".toList
    let st : Stage := { Stage.empty with
      pendingContent := dirSet dirEmpty f "c".toList,
      pendingMeta := dirSet dirEmpty f
        (generate_metadata f "ta".toList "s".toList "c".toList "i1".toList "t1".toList) }
    (reject_submission st f).1 = 200
    ∧ (reject_submission st f).2.pendingContent f = none
    ∧ (reject_submission st f).2.pendingMeta f = none
    ∧ (reject_submission st f).2.approvedContent f = st.approvedContent f
    ∧ (reject_submission st f).2.approvedMeta f = st.approvedMeta f
    ∧ (st.approvedMeta f = none →
        (reject_submission st f).2.pendingMeta f = none
        ∧ (reject_submission st f).2.approvedMeta f = none) :=
  C6_reject_amended _ _ _

/-- C7 counterexample: the exactly one location invariant fails on a
reachable state: submit, approve, then submit the same filename again; the
second submission succeeds because only the pending directory is checked,
leaving the record present in both the pending and the approved directory
at once. -/
theorem C7_counterexample :
    let f : Str := "f1".toList
    let s1 := (submit_raw_data Stage.empty f "ta".toList "s".toList "c1".toList
                 "i1".toList "t1".toList).2
    let s2 := (approve_submission s1 f "t2".toList).2
    let r3 := submit_raw_data s2 f "ta".toList "s".toList "c2".toList
                 "i2".toList "t3".toList
    r3.1 = 200
    ∧ (r3.2.pendingContent f).isSome = true
    ∧ (r3.2.approvedContent f).isSome = true := by decide

/-- C7 corrected: each record is located in pending, approved or both.
Reject and approve leave their target in at most one directory and update
moves nothing between directories, but submission checks only the pending
directory, so a filename that is already approved can be resubmitted and
then exists in both directories at once; the exactly one location invariant
therefore fails. -/
theorem C7_location_amended (st : Stage) (filename language source content id now g c : Str)
    (m : Meta) (newContent : Option Str) (metaPatch : Option (Meta → Meta))
    (h1 : filename.isEmpty = false) (h2 : language.isEmpty = false)
    (h3 : source.isEmpty = false) (h4 : content.isEmpty = false)
    (h5 : pyIsAlnum ((pyStrip filename).filter (fun c => c != '_' && c != '-')) = true) :
    ((reject_submission st g).2.pendingContent g = none
      ∧ (reject_submission st g).2.approvedContent g = st.approvedContent g)
    ∧ (st.pendingContent g = some c → st.pendingMeta g = some m →
        (approve_submission st g now).2.pendingContent g = none
        ∧ (approve_submission st g now).2.approvedContent g = some c)
    ∧ (((update_pending_item st g newContent metaPatch now).2.pendingContent g).isSome
          = (st.pendingContent g).isSome
      ∧ ((update_pending_item st g newContent metaPatch now).2.pendingMeta g).isSome
          = (st.pendingMeta g).isSome
      ∧ (update_pending_item st g newContent metaPatch now).2.approvedContent g
          = st.approvedContent g
      ∧ (update_pending_item st g newContent metaPatch now).2.approvedMeta g
          = st.approvedMeta g)
    ∧ (st.pendingContent (pyStrip filename) = none →
      (st.approvedContent (pyStrip filename)).isSome = true →
        (submit_raw_data st filename language source content id now).1 = 200
        ∧ ((submit_raw_data st filename language source content id now).2.pendingContent
             (pyStrip filename)).isSome = true
        ∧ ((submit_raw_data st filename language source content id now).2.approvedContent
             (pyStrip filename)).isSome = true) := by
  refine ⟨⟨by simp [reject_submission, dirDel], rfl⟩, ?_, ?_, ?_⟩
  · intro hc hm
    simp [approve_submission, hc, hm, dirDel, dirSet]
  · rcases hc : st.pendingContent g with _ | oc
    · simp [update_pending_item, hc]
    · rcases hm : st.pendingMeta g with _ | om
      · simp [update_pending_item, hc, hm, dirSet]
      · simp [update_pending_item, hc, hm, dirSet]
  · intro hp ha
    simp [submit_raw_data, h1, h2, h3, h4, h5, hp, dirSet, ha]

/-- C7 witness: the amended location facts at the state produced by the
counterexample trace, where the filename sits in both directories. -/
theorem C7_location_amended_witness :
    let f : Str := "f1".toList
    let s1 := (submit_raw_data Stage.empty f "ta".toList "s".toList "c1".toList
                 "i1".toList "t1".toList).2
    let st := (approve_submission s1 f "t2".toList).2
    (f.isEmpty = false
      ∧ pyIsAlnum ((pyStrip f).filter (fun c => c != '_' && c != '-')) = true)
    ∧ (((reject_submission st f).2.pendingContent f = none
      ∧ (reject_submission st f).2.approvedContent f = st.approvedContent f)
    ∧ (st.pendingContent f = some ("c1".toList) → st.pendingMeta f = some
        (generate_metadata f "ta".toList "s".toList "c1".toList "i1".toList "t1".toList) →
        (approve_submission st f "t3".toList).2.pendingContent f = none
        ∧ (approve_submission st f "t3".toList).2.approvedContent f = some ("c1".toList))
    ∧ (((update_pending_item st f none none "t3".toList).2.pendingContent f).isSome
          = (st.pendingContent f).isSome
      ∧ ((update_pending_item st f none none "t3".toList).2.pendingMeta f).isSome
          = (st.pendingMeta f).isSome
      ∧ (update_pending_item st f none none "t3".toList).2.approvedContent f
          = st.approvedContent f
      ∧ (update_pending_item st f none none "t3".toList).2.approvedMeta f
          = st.approvedMeta f)
    ∧ (st.pendingContent (pyStrip f) = none →
      (st.approvedContent (pyStrip f)).isSome = true →
        (submit_raw_data st f "ta".toList "s".toList "c2".toList "i2".toList "t3".toList).1 = 200
        ∧ ((submit_raw_data st f "ta".toList "s".toList "c2".toList "i2".toList "t3".toList).2.pendingContent
             (pyStrip f)).isSome = true
        ∧ ((submit_raw_data st f "ta".toList "s".toList "c2".toList "i2".toList "t3".toList).2.approvedContent
             (pyStrip f)).isSome = true)) :=
  ⟨by decide,
   C7_location_amended
     (approve_submission
       (submit_raw_data Stage.empty ("f1".toList) ("ta".toList) ("s".toList)
         ("c1".toList) ("i1".toList) ("t1".toList)).2 ("f1".toList) ("t2".toList)).2
     ("f1".toList) ("ta".toList) ("s".toList) ("c2".toList) ("i2".toList) ("t3".toList)
     ("f1".toList) ("c1".toList)
     (generate_metadata ("f1".toList) ("ta".toList) ("s".toList) ("c1".toList)
       ("i1".toList) ("t1".toList))
     none none (by decide) (by decide) (by decide) (by decide) (by decide)⟩

theorem keys_fsRemove (dir : List (Nat × ChunkFile)) (i : Nat) :
    (fsRemove dir i).map Prod.fst = (dir.map Prod.fst).filter (fun x => x != i) := by
  induction dir with
  | nil => rfl
  | cons p rest ih =>
    by_cases h : p.1 = i <;> simp [fsRemove, List.filter_cons, h] at ih ⊢ <;> simpa [fsRemove] using ih

theorem mem_keys_fsRemove (dir : List (Nat × ChunkFile)) (i x : Nat) :
    x ∈ (fsRemove dir i).map Prod.fst ↔ x ∈ dir.map Prod.fst ∧ x ≠ i := by
  rw [keys_fsRemove]
  simp [List.mem_filter]

theorem length_fsRemove (dir : List (Nat × ChunkFile)) (i : Nat)
    (hmem : i ∈ dir.map Prod.fst) (hnd : (dir.map Prod.fst).Nodup) :
    (fsRemove dir i).length + 1 = dir.length := by
  induction dir with
  | nil => simp at hmem
  | cons p rest ih =>
    simp only [List.map_cons, List.nodup_cons] at hnd
    rw [List.map_cons] at hmem
    by_cases h : p.1 = i
    · have hrest : fsRemove rest i = rest := by
        apply List.filter_eq_self.mpr
        intro q hq
        have hq1 : q.1 ∈ rest.map Prod.fst := List.mem_map_of_mem Prod.fst hq
        simp only [bne_iff_ne, ne_eq]
        intro hqi
        exact hnd.1 (by rw [h, ← hqi]; exact hq1)
      have hx : fsRemove (p :: rest) i = fsRemove rest i := by
        simp [fsRemove, List.filter_cons, h]
      rw [hx, hrest]
      simp
    · have hm : i ∈ rest.map Prod.fst := by
        rcases List.mem_cons.mp hmem with h1 | h1
        · exact absurd h1.symm h
        · exact h1
      have hih := ih hm hnd.2
      have hx : fsRemove (p :: rest) i = p :: fsRemove rest i := by
        simp [fsRemove, List.filter_cons, h]
      rw [hx]
      simp only [List.length_cons]
      omega

/-- C1: a valid chunk submission for a source file whose approved cleaned
file exists is assigned chunk index equal to the number of existing pending
chunks plus the number of existing approved chunks for that file, plus one. -/
theorem C1_chunk_index (cleaned : Stage) (cs : ChunkStore)
    (filename text category source overlap now : Str)
    (hf : filename.isEmpty = false) (ht : text.isEmpty = false)
    (hc : category.isEmpty = false)
    (hclean : (cleaned.approvedContent (pyStrip filename)).isSome = true) :
    (submit_chunk cleaned cs filename text category source overlap now).1 = 200
    ∧ (submit_chunk cleaned cs filename text category source overlap now).2.2
        = some ((cs.pending (pyStrip filename)).length
                 + (cs.approved (pyStrip filename)).length + 1) := by
  obtain ⟨cc, hcc⟩ := Option.isSome_iff_exists.mp hclean
  constructor <;> simp [submit_chunk, hf, ht, hc, hcc, chunkCount]

/-- C1 witness: the first chunk of a fresh source file receives index one. -/
theorem C1_chunk_index_witness :
    let f : Str := "d1".toList
    let cleaned : Stage := { Stage.empty with
      approvedContent := dirSet dirEmpty f "cc".toList }
    (f.isEmpty = false ∧ ("x".toList : Str).isEmpty = false
      ∧ ("edu".toList : Str).isEmpty = false
      ∧ (cleaned.approvedContent (pyStrip f)).isSome = true)
    ∧ ((submit_chunk cleaned ChunkStore.empty f "x".toList "edu".toList "s".toList
          [] "t1".toList).1 = 200
      ∧ (submit_chunk cleaned ChunkStore.empty f "x".toList "edu".toList "s".toList
          [] "t1".toList).2.2
          = some ((ChunkStore.empty.pending (pyStrip f)).length
                   + (ChunkStore.empty.approved (pyStrip f)).length + 1)) :=
  ⟨by decide,
   C1_chunk_index
     { Stage.empty with approvedContent := dirSet dirEmpty ("d1".toList) ("cc".toList) }
     ChunkStore.empty ("d1".toList) ("x".toList) ("edu".toList) ("s".toList) [] ("t1".toList)
     (by decide) (by decide) (by decide) (by decide)⟩

/-- C2 counterexample: submit three chunks (indices 1, 2, 3), delete the
pending chunk with index 2, which is not the highest; the next submission
is assigned index 3 again, although chunk 3 was assigned earlier and never
deleted, and the write overwrites the existing chunk_03 file, leaving the
pending count unchanged at two. -/
theorem C2_counterexample :
    let f : Str := "d1".toList
    let cleaned : Stage := { Stage.empty with
      approvedContent := dirSet dirEmpty f "cc".toList }
    let r1 := submit_chunk cleaned ChunkStore.empty f "x".toList "edu".toList
                "s".toList [] "t1".toList
    let r2 := submit_chunk cleaned r1.2.1 f "y".toList "edu".toList
                "s".toList [] "t2".toList
    let r3 := submit_chunk cleaned r2.2.1 f "z".toList "edu".toList
                "s".toList [] "t3".toList
    let d := delete_chunk r3.2.1 f 2
    let r4 := submit_chunk cleaned d.2 f "w".toList "edu".toList
                "s".toList [] "t5".toList
    r1.2.2 = some 1 ∧ r2.2.2 = some 2 ∧ r3.2.2 = some 3
    ∧ d.1 = 200
    ∧ 3 ∈ (d.2.pending f).map Prod.fst
    ∧ r4.2.2 = some 3
    ∧ (d.2.pending f).length = 2
    ∧ (r4.2.1.pending f).length = 2 := by decide

/-- C2 corrected: the index of a new chunk is the existing file count plus
one, so freshness holds only while the existing indices fill exactly the
range one to count: then the assigned index is fresh, and deleting the
pending chunk with the highest index frees exactly that index for the next
submission; deleting a non highest pending chunk instead makes the next
submission reuse an existing index and overwrite that chunk file. -/
theorem C2_index_amended (cleaned : Stage) (cs : ChunkStore)
    (filename text category source overlap now : Str)
    (hf : filename.isEmpty = false) (ht : text.isEmpty = false)
    (hc : category.isEmpty = false)
    (hclean : (cleaned.approvedContent (pyStrip filename)).isSome = true)
    (hnd : (chunkKeys cs (pyStrip filename)).Nodup)
    (hbound : ∀ i ∈ chunkKeys cs (pyStrip filename),
        1 ≤ i ∧ i ≤ chunkCount cs (pyStrip filename)) :
    ((submit_chunk cleaned cs filename text category source overlap now).2.2
        = some (chunkCount cs (pyStrip filename) + 1)
      ∧ chunkCount cs (pyStrip filename) + 1 ∉ chunkKeys cs (pyStrip filename))
    ∧ (chunkCount cs (pyStrip filename) ∈ (cs.pending (pyStrip filename)).map Prod.fst →
        (delete_chunk cs (pyStrip filename) (chunkCount cs (pyStrip filename))).1 = 200
        ∧ (submit_chunk cleaned
             (delete_chunk cs (pyStrip filename) (chunkCount cs (pyStrip filename))).2
             filename text category source overlap now).2.2
            = some (chunkCount cs (pyStrip filename))
        ∧ chunkCount cs (pyStrip filename)
            ∉ chunkKeys (delete_chunk cs (pyStrip filename)
                 (chunkCount cs (pyStrip filename))).2 (pyStrip filename)) := by
  obtain ⟨cc, hcc⟩ := Option.isSome_iff_exists.mp hclean
  rw [chunkKeys] at hnd
  obtain ⟨hp, ha, hdisj⟩ := List.nodup_append.mp hnd
  constructor
  · constructor
    · simp [submit_chunk, hf, ht, hc, hcc]
    · intro hmem
      have := (hbound _ hmem).2
      omega
  · intro hmem
    have h200 : (delete_chunk cs (pyStrip filename) (chunkCount cs (pyStrip filename))).1
        = 200 := by
      simp [delete_chunk, hmem]
    have hpend : (delete_chunk cs (pyStrip filename)
          (chunkCount cs (pyStrip filename))).2.pending (pyStrip filename)
        = fsRemove (cs.pending (pyStrip filename)) (chunkCount cs (pyStrip filename)) := by
      simp [delete_chunk, hmem]
    have happ : (delete_chunk cs (pyStrip filename)
          (chunkCount cs (pyStrip filename))).2.approved (pyStrip filename)
        = cs.approved (pyStrip filename) := by
      simp [delete_chunk, hmem]
    have hlen := length_fsRemove (cs.pending (pyStrip filename))
        (chunkCount cs (pyStrip filename)) hmem hp
    have hge : 1 ≤ chunkCount cs (pyStrip filename) := by
      have hk : chunkCount cs (pyStrip filename) ∈ chunkKeys cs (pyStrip filename) := by
        rw [chunkKeys]
        exact List.mem_append_left _ hmem
      exact (hbound _ hk).1
    have hcount : chunkCount (delete_chunk cs (pyStrip filename)
          (chunkCount cs (pyStrip filename))).2 (pyStrip filename) + 1
        = chunkCount cs (pyStrip filename) := by
      rw [chunkCount, hpend, happ]
      rw [chunkCount] at hlen ⊢
      omega
    refine ⟨h200, ?_, ?_⟩
    · have hidx : (submit_chunk cleaned
          (delete_chunk cs (pyStrip filename) (chunkCount cs (pyStrip filename))).2
          filename text category source overlap now).2.2
          = some (chunkCount (delete_chunk cs (pyStrip filename)
               (chunkCount cs (pyStrip filename))).2 (pyStrip filename) + 1) := by
        simp [submit_chunk, hf, ht, hc, hcc]
      rw [hidx, hcount]
    · rw [chunkKeys, hpend, happ]
      intro hx
      rcases List.mem_append.mp hx with hx1 | hx1
      · exact ((mem_keys_fsRemove _ _ _).mp hx1).2 rfl
      · exact hdisj hmem hx1

/-- C2 witness: a store whose single pending chunk has index one satisfies
the contiguity hypotheses, the next index is fresh, and deleting the
highest (only) pending chunk frees exactly index one. -/
theorem C2_index_amended_witness :
    (("d1".toList : Str).isEmpty = false ∧ ("w".toList : Str).isEmpty = false
      ∧ ("edu".toList : Str).isEmpty = false
      ∧ (exCleaned.approvedContent (pyStrip ("d1".toList))).isSome = true
      ∧ (chunkKeys exStore1 (pyStrip ("d1".toList))).Nodup
      ∧ ∀ i ∈ chunkKeys exStore1 (pyStrip ("d1".toList)),
          1 ≤ i ∧ i ≤ chunkCount exStore1 (pyStrip ("d1".toList)))
    ∧ (((submit_chunk exCleaned exStore1 ("d1".toList) ("w".toList) ("edu".toList)
            ("s".toList) [] ("t9".toList)).2.2
          = some (chunkCount exStore1 (pyStrip ("d1".toList)) + 1)
        ∧ chunkCount exStore1 (pyStrip ("d1".toList)) + 1
            ∉ chunkKeys exStore1 (pyStrip ("d1".toList)))
      ∧ (chunkCount exStore1 (pyStrip ("d1".toList))
            ∈ (exStore1.pending (pyStrip ("d1".toList))).map Prod.fst →
          (delete_chunk exStore1 (pyStrip ("d1".toList))
              (chunkCount exStore1 (pyStrip ("d1".toList)))).1 = 200
          ∧ (submit_chunk exCleaned
               (delete_chunk exStore1 (pyStrip ("d1".toList))
                 (chunkCount exStore1 (pyStrip ("d1".toList)))).2
               ("d1".toList) ("w".toList) ("edu".toList) ("s".toList) [] ("t9".toList)).2.2
              = some (chunkCount exStore1 (pyStrip ("d1".toList)))
          ∧ chunkCount exStore1 (pyStrip ("d1".toList))
              ∉ chunkKeys (delete_chunk exStore1 (pyStrip ("d1".toList))
                   (chunkCount exStore1 (pyStrip ("d1".toList)))).2
                   (pyStrip ("d1".toList)))) :=
  ⟨by decide,
   C2_index_amended exCleaned exStore1 ("d1".toList) ("w".toList) ("edu".toList)
     ("s".toList) [] ("t9".toList) (by decide) (by decide) (by decide) (by decide)
     (by decide) (by decide)⟩

theorem batch_tail_shift (existing i0 : Nat) (e : BatchEntry) (rest : List BatchEntry) :
    (List.filterMap (fun j =>
        let a := (e :: rest).getD j ⟨none, none, none, none⟩
        if a.text.isSome && a.category.isSome then some (existing + i0 + j + 1) else none)
      ((List.range rest.length).map Nat.succ))
    = (List.range rest.length).filterMap (fun j =>
        let a := rest.getD j ⟨none, none, none, none⟩
        if a.text.isSome && a.category.isSome then some (existing + (i0 + 1) + j + 1)
        else none) := by
  rw [List.filterMap_map]
  apply List.filterMap_congr
  intro j hj
  simp only [Function.comp_apply, List.getD_cons_succ]
  split
  · congr 1
    omega
  · rfl

theorem batch_layout_cons (existing i0 : Nat) (e : BatchEntry) (rest : List BatchEntry) :
    ((List.range (e :: rest).length).filterMap fun j =>
        let a := (e :: rest).getD j ⟨none, none, none, none⟩
        if a.text.isSome && a.category.isSome then some (existing + i0 + j + 1) else none)
    = (if e.text.isSome && e.category.isSome then [existing + i0 + 1] else [])
      ++ ((List.range rest.length).filterMap fun j =>
            let a := rest.getD j ⟨none, none, none, none⟩
            if a.text.isSome && a.category.isSome then some (existing + (i0 + 1) + j + 1)
            else none) := by
  rw [List.length_cons, List.range_succ_eq_map, List.filterMap_cons, batch_tail_shift]
  rcases he : e.text with _ | t
  · simp [he]
  · rcases hcat : e.category with _ | cat
    · simp [he, hcat]
    · simp [he, hcat]

theorem submit_batch_loop_indices (language f now : Str) (existing : Nat) :
    ∀ (entries : List BatchEntry) (i0 : Nat) (dir : List (Nat × ChunkFile)),
      (submit_batch_loop language f now existing i0 dir entries).2.map Prod.snd =
      (List.range entries.length).filterMap fun j =>
        let e := entries.getD j ⟨none, none, none, none⟩
        if e.text.isSome && e.category.isSome then some (existing + i0 + j + 1)
        else none := by
  intro entries
  induction entries with
  | nil => intro i0 dir; simp [submit_batch_loop]
  | cons e rest ih =>
    intro i0 dir
    rw [batch_layout_cons]
    rcases he : e.text with _ | t
    · have hstep : submit_batch_loop language f now existing i0 dir (e :: rest)
          = submit_batch_loop language f now existing (i0 + 1) dir rest := by
        simp [submit_batch_loop, he]
      rw [hstep, ih (i0 + 1) dir]
      simp [he]
    · rcases hcat : e.category with _ | cat
      · have hstep : submit_batch_loop language f now existing i0 dir (e :: rest)
            = submit_batch_loop language f now existing (i0 + 1) dir rest := by
          simp [submit_batch_loop, he, hcat]
        rw [hstep, ih (i0 + 1) dir]
        simp [he, hcat]
      · have hstep : (submit_batch_loop language f now existing i0 dir (e :: rest)).2.map
              Prod.snd
            = (existing + i0 + 1)
              :: (submit_batch_loop language f now existing (i0 + 1)
                   (fsWrite dir (existing + i0 + 1)
                     { chunk_id := generate_chunk_id language cat f (existing + i0 + 1),
                       text := t, language := language, category := cat,
                       source := e.source.getD "unknown".toList,
                       chunk_index := existing + i0 + 1, source_file := f,
                       overlap_reference := e.overlap_reference.getD [],
                       created_at := now, created_by := "chunker".toList,
                       text_length := t.length }) rest).2.map Prod.snd := by
          simp [submit_batch_loop, he, hcat]
        rw [hstep, ih (i0 + 1)]
        simp [he, hcat]

theorem mem_batch_index_claim (existing : Nat) (entries : List BatchEntry) (x : Nat) :
    x ∈ batch_index_claim existing entries ↔
      ∃ j, j < entries.length
        ∧ ((entries.getD j ⟨none, none, none, none⟩).text.isSome = true
            ∧ (entries.getD j ⟨none, none, none, none⟩).category.isSome = true)
        ∧ x = existing + j + 1 := by
  simp only [batch_index_claim, List.mem_filterMap, List.mem_range]
  constructor
  · rintro ⟨j, hj, hg⟩
    by_cases hq : ((entries.getD j ⟨none, none, none, none⟩).text.isSome
        && (entries.getD j ⟨none, none, none, none⟩).category.isSome) = true
    · rw [if_pos hq] at hg
      refine ⟨j, hj, ?_, (Option.some_inj.mp hg).symm⟩
      exact ⟨((Bool.and_eq_true _ _).mp hq).1, ((Bool.and_eq_true _ _).mp hq).2⟩
    · rw [if_neg hq] at hg
      exact absurd hg (by simp)
  · rintro ⟨j, hj, ⟨h1, h2⟩, hx⟩
    refine ⟨j, hj, ?_⟩
    rw [if_pos (by rw [h1, h2]; rfl), hx]

/-- C10: in a batch submission the entry at position i of the request list
receives chunk index equal to the existing count plus i plus one, computed
from its list position; entries missing text or category are skipped without
being written, so their positional index is simply absent from the created
indices, leaving a gap rather than shifting later entries down.  The created
index list equals the positional layout stated by the claim, and position i
contributes its index exactly when it carries both fields. -/
theorem C10_batch_positions (cleaned : Stage) (cs : ChunkStore) (filename now : Str)
    (entries : List BatchEntry) (i : Nat)
    (hne : entries.isEmpty = false)
    (hclean : (cleaned.approvedContent (pyStrip filename)).isSome = true)
    (hi : i < entries.length) :
    (submit_batch cleaned cs filename entries now).1 = 200
    ∧ (submit_batch cleaned cs filename entries now).2.2.map Prod.snd
        = batch_index_claim (chunkCount cs (pyStrip filename)) entries
    ∧ (((entries.get ⟨i, hi⟩).text.isSome = true
          ∧ (entries.get ⟨i, hi⟩).category.isSome = true) ↔
        (chunkCount cs (pyStrip filename) + i + 1)
          ∈ (submit_batch cleaned cs filename entries now).2.2.map Prod.snd) := by
  obtain ⟨cc, hcc⟩ := Option.isSome_iff_exists.mp hclean
  have h200 : (submit_batch cleaned cs filename entries now).1 = 200 := by
    simp [submit_batch, hne, hcc]
  have hlist : (submit_batch cleaned cs filename entries now).2.2.map Prod.snd
      = batch_index_claim (chunkCount cs (pyStrip filename)) entries := by
    simp only [submit_batch, hne, Bool.false_eq_true, if_false, hcc, Option.isNone_some]
    rw [submit_batch_loop_indices, batch_index_claim]
    simp
  refine ⟨h200, hlist, ?_⟩
  rw [hlist, mem_batch_index_claim]
  constructor
  · rintro ⟨h1, h2⟩
    refine ⟨i, hi, ⟨?_, ?_⟩, rfl⟩
    · rw [List.getD_eq_getElem _ _ hi]
      simpa [List.get_eq_getElem] using h1
    · rw [List.getD_eq_getElem _ _ hi]
      simpa [List.get_eq_getElem] using h2
  · rintro ⟨j, hj, ⟨h1, h2⟩, hx⟩
    have hij : j = i := by omega
    subst hij
    rw [List.getD_eq_getElem _ _ hj] at h1 h2
    constructor
    · simpa [List.get_eq_getElem] using h1
    · simpa [List.get_eq_getElem] using h2

/-- C10 witness: a two entry batch for source file d1 where the first entry
carries both fields and the second lacks a category, checked at position 0
of the list. -/
theorem C10_batch_positions_witness :
    let f : Str := "d1".toList
    let e1 : BatchEntry := { text := some ("x".toList), category := some ("edu".toList) }
    let e2 : BatchEntry := { text := some ("y".toList) }
    (([e1, e2] : List BatchEntry).isEmpty = false
      ∧ (exCleaned.approvedContent (pyStrip f)).isSome = true
      ∧ 0 < ([e1, e2] : List BatchEntry).length)
    ∧ ((submit_batch exCleaned ChunkStore.empty f [e1, e2] ("t1".toList)).1 = 200
      ∧ (submit_batch exCleaned ChunkStore.empty f [e1, e2] ("t1".toList)).2.2.map Prod.snd
          = batch_index_claim (chunkCount ChunkStore.empty (pyStrip f)) [e1, e2]
      ∧ (((([e1, e2] : List BatchEntry).get ⟨0, by decide⟩).text.isSome = true
            ∧ ((([e1, e2] : List BatchEntry).get ⟨0, by decide⟩).category.isSome = true)) ↔
          (chunkCount ChunkStore.empty (pyStrip f) + 0 + 1)
            ∈ (submit_batch exCleaned ChunkStore.empty f [e1, e2]
                ("t1".toList)).2.2.map Prod.snd)) :=
  ⟨by decide,
   C10_batch_positions exCleaned ChunkStore.empty ("d1".toList) ("t1".toList)
     [{ text := some ("x".toList), category := some ("edu".toList) },
      { text := some ("y".toList) }] 0 (by decide) (by decide) (by decide)⟩

end RagPlatform
